import Mathlib

/-!
Shallow embedding of the interview time-slot scheduling subsystem
(`src/models/Interview.js` and `src/routes/interviews.js`).

Instants are modelled as integers counting milliseconds (JavaScript
`Date.getTime()`); durations are integers counting minutes, converted to
milliseconds by multiplying with 60000, exactly as the source does.
Mongo documents become Lean structures, the interview collection a
`List Interview`, and each Express route handler a pure function from the
store (plus the clock reading `now`) to an `Except`-typed result.
-/

namespace Backend

/-- Interview status enum of the Mongoose schema
(`["scheduled", "in-progress", "completed", "cancelled", "expired"]`). -/
inductive Status where
  | scheduled
  | inProgress
  | completed
  | cancelled
  | expired
deriving DecidableEq, Repr

/-- The `$in: ["scheduled", "in-progress"]` filter used by both the conflict
query and the my-interviews listing. -/
def Status.isActive : Status → Bool
  | .scheduled => true
  | .inProgress => true
  | _ => false

/-- One document of the `Interview` collection (fields of the Mongoose schema
that the route handlers read or write; `meetingRoom` and the timestamps are
never consulted by any handler). -/
structure Interview where
  id : Nat
  user : Nat
  job : Nat
  scheduledAt : Int
  duration : Int
  status : Status
  itype : String
  notes : Option String
  startedAt : Option Int
  completedAt : Option Int
deriving DecidableEq, Repr

/-- The end of the slot: `scheduledAt.getTime() + duration * 60 * 1000`. -/
def Interview.endTime (i : Interview) : Int :=
  i.scheduledAt + i.duration * 60000

/-- One document of the `Job` collection, reduced to what the interview
routes consult: its id and the user ids of its `applications` array. -/
structure Job where
  id : Nat
  applications : List Nat
deriving DecidableEq, Repr

/-- The persistent state the interview routes touch: the two collections and
a fresh-id counter standing for Mongo object-id generation. -/
structure St where
  jobs : List Job
  interviews : List Interview
  nextId : Nat
deriving DecidableEq, Repr

/-- Lookup `Job.findById`. -/
def findJob (jobs : List Job) (jobId : Nat) : Option Job :=
  jobs.find? (fun j => j.id == jobId)

/-- The lookup `Interview.findOne({ _id: interviewId, user: userId })` — the
owner-scoped lookup shared by the start, complete, cancel and get routes. -/
def findOwned (ivs : List Interview) (interviewId userId : Nat) : Option Interview :=
  ivs.find? (fun i => i.id == interviewId && i.user == userId)

/-- Mongoose `document.save()` after in-place mutation: the stored document
with the same `_id` is replaced by the updated one. -/
def saveInterview (st : St) (iv : Interview) : St :=
  { st with interviews := st.interviews.map (fun j => if j.id = iv.id then iv else j) }

/-- The per-document match predicate of the `checkTimeConflict` Mongo query:
status in `{scheduled, in-progress}` and one of the three `$or` branches
(new starts during existing / new ends during existing / new contains
existing), with `startTime = scheduledAt` and
`endTime = startTime + duration * 60000` of the candidate slot. -/
def conflictMatch (startTime duration : Int) (i : Interview) : Bool :=
  i.status.isActive &&
    ((decide (i.scheduledAt ≤ startTime) && decide (startTime < i.endTime)) ||
     (decide (i.scheduledAt < startTime + duration * 60000) &&
      decide (startTime + duration * 60000 < i.endTime)) ||
     (decide (startTime ≤ i.scheduledAt) &&
      decide (i.endTime ≤ startTime + duration * 60000)))

/-- The static `Interview.checkTimeConflict(scheduledAt, duration, excludeId)` —
`findOne` over the collection with the conflict query, returning the first
matching document, if any.  Note the query carries no `user` field: every
candidate's bookings are scanned. -/
def checkTimeConflict (ivs : List Interview) (scheduledAt duration : Int)
    (excludeId : Option Nat) : Option Interview :=
  ivs.find? (fun i =>
    (match excludeId with
     | some e => decide (i.id ≠ e)
     | none => true) &&
    conflictMatch scheduledAt duration i)

/-- Match predicate of `cleanupExpiredInterviews`: status `scheduled` and
`scheduledAt + duration * 60000 < now`. -/
def expireMatch (now : Int) (i : Interview) : Bool :=
  decide (i.status = .scheduled) && decide (i.endTime < now)

/-- The static `Interview.cleanupExpiredInterviews()` — `updateMany` setting
`status: "expired"` on every matching document, returning the updated
collection and the `modifiedCount`. -/
def cleanupExpiredInterviews (ivs : List Interview) (now : Int) :
    List Interview × Nat :=
  (ivs.map (fun i => if expireMatch now i then { i with status := .expired } else i),
   ivs.countP (expireMatch now))

/-- Typed outcomes of `POST /schedule`. -/
inductive SchedErr where
  | MissingFields
  | JobNotFound
  | NotApplied
  | InvalidTime
  | SlotConflict
deriving DecidableEq, Repr

/-- The document `new Interview({user, job, scheduledAt, duration, type:
"ai-interview"})` built by `POST /schedule`; the remaining schema fields take
their Mongoose defaults. -/
def newInterview (st : St) (userId jobId : Nat) (scheduledAt duration : Int) :
    Interview :=
  { id := st.nextId, user := userId, job := jobId,
    scheduledAt := scheduledAt, duration := duration,
    status := .scheduled, itype := "ai-interview",
    notes := none, startedAt := none, completedAt := none }

/-- Route `POST /schedule`: required-field check, then job existence, application
membership, future-time check and conflict check, short-circuiting in that
order; on success the interview is created with status `scheduled` and type
`ai-interview`, with `duration` defaulting to 10 when the body omits it. -/
def schedule (st : St) (userId : Nat) (jobId? : Option Nat)
    (scheduledAt? : Option Int) (duration? : Option Int) (now : Int) :
    Except SchedErr (St × Interview) :=
  match jobId?, scheduledAt? with
  | some jobId, some scheduledAt =>
    match findJob st.jobs jobId with
    | none => .error .JobNotFound
    | some job =>
      if userId ∈ job.applications then
        if scheduledAt ≤ now then
          .error .InvalidTime
        else
          let duration := duration?.getD 10
          match checkTimeConflict st.interviews scheduledAt duration none with
          | some _ => .error .SlotConflict
          | none =>
            .ok ({ st with
                     interviews := st.interviews ++
                       [newInterview st userId jobId scheduledAt duration],
                     nextId := st.nextId + 1 },
                 newInterview st userId jobId scheduledAt duration)
      else .error .NotApplied
  | _, _ => .error .MissingFields

/-- Typed outcomes of `POST /:id/start`. -/
inductive StartErr where
  | NotFound
  | TooEarly (timeUntilStart : Int)
  | WindowExpired
  | InvalidTransition
deriving DecidableEq, Repr

/-- Route `POST /:id/start`: owner-scoped lookup, then the two time-window checks
(`timeUntilStart > 0`, `timeUntilEnd <= 0`) before the status guard; on
success the document is saved with status `in-progress` and
`startedAt = now`. -/
def start (st : St) (interviewId userId : Nat) (now : Int) :
    Except StartErr (St × Interview) :=
  match findOwned st.interviews interviewId userId with
  | none => .error .NotFound
  | some interview =>
    let timeUntilStart := interview.scheduledAt - now
    let timeUntilEnd := interview.scheduledAt + interview.duration * 60000 - now
    if 0 < timeUntilStart then .error (.TooEarly timeUntilStart)
    else if timeUntilEnd ≤ 0 then .error .WindowExpired
    else if interview.status ≠ .scheduled then .error .InvalidTransition
    else
      let updated := { interview with status := .inProgress, startedAt := some now }
      .ok (saveInterview st updated, updated)

/-- Typed outcomes of `POST /:id/complete`. -/
inductive CompleteErr where
  | NotFound
  | InvalidTransition
deriving DecidableEq, Repr

/-- The in-place mutation of `POST /:id/complete`: status `completed`,
`completedAt = now`, and `notes` overwritten only when the body supplies a
truthy (non-empty) string — `if (notes)` in the source. -/
def completedDoc (interview : Interview) (notes? : Option String) (now : Int) :
    Interview :=
  { interview with
    status := .completed,
    completedAt := some now,
    notes := match notes? with
             | some s => if s = "" then interview.notes else some s
             | none => interview.notes }

/-- Route `POST /:id/complete`: owner-scoped lookup, status guard
(`status !== "in-progress"`), then save the mutated document. -/
def complete (st : St) (interviewId userId : Nat) (notes? : Option String)
    (now : Int) : Except CompleteErr (St × Interview) :=
  match findOwned st.interviews interviewId userId with
  | none => .error .NotFound
  | some interview =>
    if interview.status ≠ .inProgress then .error .InvalidTransition
    else .ok (saveInterview st (completedDoc interview notes? now),
              completedDoc interview notes? now)

/-- Typed outcomes of `DELETE /:id`. -/
inductive CancelErr where
  | NotFound
  | CannotCancelCompleted
deriving DecidableEq, Repr

/-- Route `DELETE /:id`: owner-scoped lookup, rejection when status is
`completed`, otherwise `findByIdAndDelete` — physical removal of the
document from the collection. -/
def cancel (st : St) (interviewId userId : Nat) : Except CancelErr St :=
  match findOwned st.interviews interviewId userId with
  | none => .error .NotFound
  | some interview =>
    if interview.status = .completed then .error .CannotCancelCompleted
    else .ok { st with interviews := st.interviews.filter (fun j => decide (j.id ≠ interviewId)) }

/-- Typed outcome of `GET /:id`. -/
inductive GetErr where
  | NotFound
deriving DecidableEq, Repr

/-- Route `GET /:id`: owner-scoped lookup; 404 when absent or not owned. -/
def getInterview (st : St) (interviewId userId : Nat) :
    Except GetErr Interview :=
  match findOwned st.interviews interviewId userId with
  | none => .error .NotFound
  | some interview => .ok interview

/-! ## Helper lemmas -/

/-- With `excludeId = null` (the only way the routes call it), the conflict
query is a plain scan with the match predicate. -/
theorem checkTimeConflict_none (ivs : List Interview) (s d : Int) :
    checkTimeConflict ivs s d none = ivs.find? (conflictMatch s d) := by
  unfold checkTimeConflict
  simp

/-- The three-branch `$or` of the conflict query is exactly the half-open
overlap test, once both intervals are non-degenerate. -/
theorem conflictMatch_iff_overlap (s1 d1 : Int) (i : Interview)
    (hd1 : 0 < d1) (hd2 : 0 < i.duration) :
    conflictMatch s1 d1 i = true ↔
      (i.status.isActive = true ∧ s1 < i.endTime ∧ i.scheduledAt < s1 + d1 * 60000) := by
  unfold conflictMatch Interview.endTime
  simp only [Bool.and_eq_true, Bool.or_eq_true, decide_eq_true_eq]
  constructor
  · rintro ⟨ha, h⟩
    exact ⟨ha, by omega⟩
  · rintro ⟨ha, h1, h2⟩
    exact ⟨ha, by omega⟩

/-- Equation lemma: `POST /schedule` with both required fields present. -/
theorem schedule_eq (st : St) (userId jobId : Nat) (scheduledAt : Int)
    (duration? : Option Int) (now : Int) :
    schedule st userId (some jobId) (some scheduledAt) duration? now =
      (match findJob st.jobs jobId with
       | none => .error .JobNotFound
       | some job =>
         if userId ∈ job.applications then
           if scheduledAt ≤ now then
             .error .InvalidTime
           else
             match checkTimeConflict st.interviews scheduledAt (duration?.getD 10) none with
             | some _ => .error .SlotConflict
             | none =>
               .ok ({ st with
                        interviews := st.interviews ++
                          [newInterview st userId jobId scheduledAt (duration?.getD 10)],
                        nextId := st.nextId + 1 },
                    newInterview st userId jobId scheduledAt (duration?.getD 10))
         else .error .NotApplied) := rfl

/-- Equation lemma: `POST /:id/start` once the owner-scoped lookup hits. -/
theorem start_eq_of_findOwned (st : St) (interviewId userId : Nat) (now : Int)
    (iv : Interview)
    (hfind : findOwned st.interviews interviewId userId = some iv) :
    start st interviewId userId now =
      (if 0 < iv.scheduledAt - now then .error (.TooEarly (iv.scheduledAt - now))
       else if iv.scheduledAt + iv.duration * 60000 - now ≤ 0 then .error .WindowExpired
       else if iv.status ≠ .scheduled then .error .InvalidTransition
       else .ok (saveInterview st { iv with status := .inProgress, startedAt := some now },
                 { iv with status := .inProgress, startedAt := some now })) := by
  unfold start
  rw [hfind]

/-- Equation lemma: `POST /:id/complete` once the owner-scoped lookup hits. -/
theorem complete_eq_of_findOwned (st : St) (interviewId userId : Nat)
    (notes? : Option String) (now : Int) (iv : Interview)
    (hfind : findOwned st.interviews interviewId userId = some iv) :
    complete st interviewId userId notes? now =
      (if iv.status ≠ .inProgress then .error .InvalidTransition
       else .ok (saveInterview st (completedDoc iv notes? now),
                 completedDoc iv notes? now)) := by
  unfold complete
  rw [hfind]

/-- Equation lemma: `DELETE /:id` once the owner-scoped lookup hits. -/
theorem cancel_eq_of_findOwned (st : St) (interviewId userId : Nat)
    (iv : Interview)
    (hfind : findOwned st.interviews interviewId userId = some iv) :
    cancel st interviewId userId =
      (if iv.status = .completed then .error .CannotCancelCompleted
       else .ok { st with interviews :=
                    st.interviews.filter fun j => decide (j.id ≠ interviewId) }) := by
  unfold cancel
  rw [hfind]

/-- After `save`, the owner-scoped lookup returns the saved document,
provided the save keeps the id and the owner of the document it found
before. -/
theorem findOwned_save (ivs : List Interview) (interviewId userId : Nat)
    (iv iv' : Interview)
    (hfind : findOwned ivs interviewId userId = some iv)
    (hid : iv'.id = iv.id) (huser : iv'.user = iv.user) :
    findOwned (ivs.map fun j => if j.id = iv'.id then iv' else j)
      interviewId userId = some iv' := by
  unfold findOwned at hfind ⊢
  have hmatch := List.find?_some hfind
  simp only [Bool.and_eq_true, beq_iff_eq] at hmatch
  obtain ⟨hmid, hmuser⟩ := hmatch
  have hp : (iv'.id == interviewId && iv'.user == userId) = true := by
    simp [hid, huser, hmid, hmuser]
  induction ivs with
  | nil => cases hfind
  | cons a l ih =>
    rw [List.map_cons]
    by_cases hpa : (a.id == interviewId && a.user == userId) = true
    · rw [@List.find?_cons_of_pos Interview
        (fun i => i.id == interviewId && i.user == userId) a l hpa] at hfind
      injection hfind with he
      subst he
      rw [if_pos hid.symm]
      exact List.find?_cons_of_pos _ hp
    · rw [@List.find?_cons_of_neg Interview
        (fun i => i.id == interviewId && i.user == userId) a l hpa] at hfind
      by_cases hh : a.id = iv'.id
      · rw [if_pos hh]
        exact List.find?_cons_of_pos _ hp
      · rw [if_neg hh]
        rw [@List.find?_cons_of_neg Interview
          (fun i => i.id == interviewId && i.user == userId) a _ hpa]
        exact ih hfind

/-- The sweeper's match predicate, phrased as a single decidable
proposition. -/
theorem expireMatch_eq_decide (now : Int) (i : Interview) :
    expireMatch now i = decide (i.status = .scheduled ∧ i.endTime < now) := by
  simp [expireMatch]

/-- One pass of the sweeper leaves no document matching the sweeper's own
predicate. -/
theorem expireStep_fixed (now : Int) (i : Interview) :
    expireMatch now
      (if expireMatch now i then { i with status := .expired } else i) = false := by
  by_cases h : expireMatch now i = true
  · rw [if_pos h]
    rfl
  · rw [if_neg h]
    simpa using h

/-! ## Concrete scenarios used by counterexamples and witnesses -/

/-- A job both candidate 1 and candidate 2 have applied to. -/
def twoCandJob : Job := { id := 1, applications := [1, 2] }

/-- Candidate 1's existing booking `[3600000, 4200000)` (one hour in,
10 minutes long), status `scheduled`. -/
def cand1Booking : Interview :=
  { id := 10, user := 1, job := 1, scheduledAt := 3600000, duration := 10,
    status := .scheduled, itype := "ai-interview", notes := none,
    startedAt := none, completedAt := none }

/-- Store holding candidate 1's booking, with both candidates applied to
job 1. -/
def twoCandSt : St :=
  { jobs := [twoCandJob], interviews := [cand1Booking], nextId := 11 }

/-- Candidate 1's booking already started: status `in-progress`. -/
def progBooking : Interview :=
  { cand1Booking with id := 20, status := .inProgress, startedAt := some 3600000 }

/-- Store holding only the in-progress booking. -/
def progSt : St :=
  { jobs := [twoCandJob], interviews := [progBooking], nextId := 21 }

/-- A job only candidate 1 applied to. -/
def soloJob : Job := { id := 1, applications := [1] }

/-- Empty store over `soloJob`. -/
def soloSt : St := { jobs := [soloJob], interviews := [], nextId := 0 }

/-! ## Claims -/

/-- C2: for a candidate interval `[s1, s1 + d1 minutes)` and any stored
interview with a positive duration, the conflict query matches exactly the
interviews in status `{scheduled, in-progress}` satisfying the standard
half-open overlap test `s1 < e2 && s2 < e1`, and two intervals that merely
abut (one's end equal to the other's start) are never reported. -/
theorem conflict_iff_halfOpen_overlap (ivs : List Interview) (s1 d1 : Int)
    (hd1 : 0 < d1) (hpos : ∀ i ∈ ivs, 0 < i.duration) :
    ((checkTimeConflict ivs s1 d1 none).isSome ↔
      ∃ i ∈ ivs, i.status.isActive = true ∧
        s1 < i.endTime ∧ i.scheduledAt < s1 + d1 * 60000)
    ∧ (∀ i ∈ ivs, i.endTime = s1 → conflictMatch s1 d1 i = false)
    ∧ (∀ i ∈ ivs, s1 + d1 * 60000 = i.scheduledAt → conflictMatch s1 d1 i = false) := by
  refine ⟨?_, ?_, ?_⟩
  · rw [checkTimeConflict_none, List.find?_isSome]
    constructor
    · rintro ⟨i, hi, hm⟩
      exact ⟨i, hi, (conflictMatch_iff_overlap s1 d1 i hd1 (hpos i hi)).mp hm⟩
    · rintro ⟨i, hi, h⟩
      exact ⟨i, hi, (conflictMatch_iff_overlap s1 d1 i hd1 (hpos i hi)).mpr h⟩
  · intro i hi habut
    cases hb : conflictMatch s1 d1 i
    · rfl
    · obtain ⟨-, h1, -⟩ := (conflictMatch_iff_overlap s1 d1 i hd1 (hpos i hi)).mp hb
      omega
  · intro i hi habut
    cases hb : conflictMatch s1 d1 i
    · rfl
    · obtain ⟨-, -, h2⟩ := (conflictMatch_iff_overlap s1 d1 i hd1 (hpos i hi)).mp hb
      omega

/-- C2 witness: on the one-element store, the overlap of `[3600000, 4200000)`
with itself is reported as a conflict. -/
theorem conflict_iff_halfOpen_overlap_witness :
    (checkTimeConflict [cand1Booking] 3600000 10 none).isSome = true := by
  have h := conflict_iff_halfOpen_overlap [cand1Booking] 3600000 10 (by decide)
    (by intro i hi; rw [List.mem_singleton] at hi; rw [hi]; decide)
  rw [h.1]
  exact ⟨cand1Booking, List.mem_singleton.mpr rfl, by decide, by decide, by decide⟩

/-- C1 counterexample: candidate 1 holds the only booking, yet candidate 2's
schedule call for an overlapping slot on a job they applied to fails with
`SlotConflict` — the conflict check is not scoped to the caller. -/
theorem conflict_not_candidate_scoped_cex :
    cand1Booking.user = 1 ∧ (1 : Nat) ≠ 2 ∧
    schedule twoCandSt 2 (some 1) (some 3600000) (some 10) 0 =
      .error .SlotConflict := by
  refine ⟨rfl, by decide, ?_⟩
  rfl

/-- C1 amended: the conflict check during schedule is global, not scoped to
the requesting candidate: once the job exists, the caller has applied and the
requested time is in the future, schedule fails with `SlotConflict` exactly
when some existing interview of any candidate in status
`{scheduled, in-progress}` matches the overlap query for the requested
slot. -/
theorem schedule_conflict_is_global (st : St) (userId jobId : Nat)
    (scheduledAt : Int) (duration? : Option Int) (now : Int) (job : Job)
    (hjob : findJob st.jobs jobId = some job)
    (happ : userId ∈ job.applications)
    (htime : now < scheduledAt) :
    (schedule st userId (some jobId) (some scheduledAt) duration? now =
        .error .SlotConflict
      ↔ ∃ i ∈ st.interviews,
          conflictMatch scheduledAt (duration?.getD 10) i = true) := by
  simp only [schedule_eq, hjob, if_pos happ, if_neg (not_le.mpr htime),
    checkTimeConflict_none]
  split
  · rename_i c hc
    constructor
    · intro _
      exact ⟨c, List.mem_of_find?_eq_some hc, List.find?_some hc⟩
    · intro _
      rfl
  · rename_i hc
    constructor
    · intro h
      cases h
    · rintro ⟨i, hi, hm⟩
      rw [List.find?_eq_none] at hc
      exact absurd hm (by simpa using hc i hi)

/-- C1 amended witness: candidate 2's overlapping request on `twoCandSt` is
rejected, derived through the global-conflict characterisation. -/
theorem schedule_conflict_is_global_witness :
    schedule twoCandSt 2 (some 1) (some 3605000) (some 10) 0 =
      .error .SlotConflict := by
  have h := schedule_conflict_is_global twoCandSt 2 1 3605000 (some 10) 0
    twoCandJob rfl (by decide) (by decide)
  exact h.mpr ⟨cand1Booking, List.mem_singleton.mpr rfl, by decide⟩

/-- C3: for an owner's interview in status `scheduled` (with a non-negative
duration), start succeeds exactly when `scheduledAt <= now < endTime`, in
which case the saved document has status `in-progress` and
`startedAt = now`; before the window it fails with `TooEarly` carrying
`timeUntilStart`, at or after `endTime` it fails with `WindowExpired`, and a
failure returns no updated state. -/
theorem start_window_spec (st : St) (interviewId userId : Nat) (now : Int)
    (iv : Interview)
    (hfind : findOwned st.interviews interviewId userId = some iv)
    (hstat : iv.status = .scheduled) (hdur : 0 ≤ iv.duration) :
    ((∃ p, start st interviewId userId now = .ok p) ↔
      (iv.scheduledAt ≤ now ∧ now < iv.endTime))
    ∧ (iv.scheduledAt ≤ now → now < iv.endTime →
      start st interviewId userId now =
        .ok (saveInterview st { iv with status := .inProgress, startedAt := some now },
             { iv with status := .inProgress, startedAt := some now }))
    ∧ (now < iv.scheduledAt →
      start st interviewId userId now = .error (.TooEarly (iv.scheduledAt - now)))
    ∧ (iv.endTime ≤ now →
      start st interviewId userId now = .error .WindowExpired) := by
  have heq := start_eq_of_findOwned st interviewId userId now iv hfind
  have hTooEarly : now < iv.scheduledAt →
      start st interviewId userId now = .error (.TooEarly (iv.scheduledAt - now)) := by
    intro h
    rw [heq, if_pos (by omega)]
  have hExpired : iv.endTime ≤ now →
      start st interviewId userId now = .error .WindowExpired := by
    intro h
    unfold Interview.endTime at h
    rw [heq, if_neg (by omega), if_pos (by omega)]
  have hOk : iv.scheduledAt ≤ now → now < iv.endTime →
      start st interviewId userId now =
        .ok (saveInterview st { iv with status := .inProgress, startedAt := some now },
             { iv with status := .inProgress, startedAt := some now }) := by
    intro h1 h2
    unfold Interview.endTime at h2
    rw [heq, if_neg (by omega), if_neg (by omega), if_neg (by simp [hstat])]
  refine ⟨⟨?_, ?_⟩, hOk, hTooEarly, hExpired⟩
  · rintro ⟨p, hp⟩
    by_cases h1 : now < iv.scheduledAt
    · rw [hTooEarly h1] at hp
      cases hp
    · by_cases h2 : iv.endTime ≤ now
      · rw [hExpired h2] at hp
        cases hp
      · exact ⟨by omega, by omega⟩
  · rintro ⟨h1, h2⟩
    exact ⟨_, hOk h1 h2⟩

/-- C3 witness: at the scheduled instant, candidate 1's booking starts and
the stored document becomes `in-progress` with `startedAt` set. -/
theorem start_window_spec_witness :
    start twoCandSt 10 1 3600000 =
      .ok (saveInterview twoCandSt
            { cand1Booking with status := .inProgress, startedAt := some 3600000 },
           { cand1Booking with status := .inProgress, startedAt := some 3600000 }) :=
  (start_window_spec twoCandSt 10 1 3600000 cand1Booking rfl rfl (by decide)).2.1
    (by decide) (by decide)

/-- C10: the start route's time-window checks run before the status guard:
for an owned interview in any status, a request before `scheduledAt` gets
`TooEarly`, a request at or after `endTime` gets `WindowExpired`, and
`InvalidTransition` is returned exactly when `now` lies inside
`[scheduledAt, endTime)` and the status is not `scheduled`. -/
theorem start_time_guards_precede_status (st : St) (interviewId userId : Nat)
    (now : Int) (iv : Interview)
    (hfind : findOwned st.interviews interviewId userId = some iv)
    (hdur : 0 ≤ iv.duration) :
    (now < iv.scheduledAt →
      start st interviewId userId now = .error (.TooEarly (iv.scheduledAt - now)))
    ∧ (iv.endTime ≤ now →
      start st interviewId userId now = .error .WindowExpired)
    ∧ (iv.scheduledAt ≤ now → now < iv.endTime → iv.status ≠ .scheduled →
      start st interviewId userId now = .error .InvalidTransition)
    ∧ (start st interviewId userId now = .error .InvalidTransition →
      iv.scheduledAt ≤ now ∧ now < iv.endTime ∧ iv.status ≠ .scheduled) := by
  have heq := start_eq_of_findOwned st interviewId userId now iv hfind
  have hTooEarly : now < iv.scheduledAt →
      start st interviewId userId now = .error (.TooEarly (iv.scheduledAt - now)) := by
    intro h
    rw [heq, if_pos (by omega)]
  have hExpired : iv.endTime ≤ now →
      start st interviewId userId now = .error .WindowExpired := by
    intro h
    unfold Interview.endTime at h
    rw [heq, if_neg (by omega), if_pos (by omega)]
  have hInv : iv.scheduledAt ≤ now → now < iv.endTime → iv.status ≠ .scheduled →
      start st interviewId userId now = .error .InvalidTransition := by
    intro h1 h2 h3
    unfold Interview.endTime at h2
    rw [heq, if_neg (by omega), if_neg (by omega), if_pos h3]
  refine ⟨hTooEarly, hExpired, hInv, ?_⟩
  intro h
  by_cases h1 : now < iv.scheduledAt
  · rw [hTooEarly h1] at h
    simp at h
  · by_cases h2 : iv.endTime ≤ now
    · rw [hExpired h2] at h
      simp at h
    · by_cases h3 : iv.status = .scheduled
      · rw [heq, if_neg (by omega),
          if_neg (by unfold Interview.endTime at h2; omega),
          if_neg (by simp [h3])] at h
        cases h
      · exact ⟨by omega, by omega, h3⟩

/-- C10 witness: the in-progress booking, asked to start before its
scheduled instant, is answered with `TooEarly`, not `InvalidTransition`. -/
theorem start_time_guards_precede_status_witness :
    start progSt 20 1 0 = .error (.TooEarly 3600000) :=
  (start_time_guards_precede_status progSt 20 1 0 progBooking rfl
    (by decide)).1 (by decide)

/-- C4: the sweep sets status `expired` for exactly the stored interviews in
status `scheduled` whose `endTime` is strictly earlier than `now` (position
by position, touching no other interview and no other field), returns the
count of transitioned documents, and a second sweep at the same instant is a
no-op transitioning nothing. -/
theorem sweepExpired_spec (ivs : List Interview) (now : Int) :
    ((cleanupExpiredInterviews ivs now).1.length = ivs.length)
    ∧ (∀ k : Nat, ((cleanupExpiredInterviews ivs now).1)[k]? =
        (ivs[k]?).map fun i =>
          if i.status = .scheduled ∧ i.endTime < now
          then { i with status := .expired } else i)
    ∧ ((cleanupExpiredInterviews ivs now).2 =
        (ivs.filter fun i => decide (i.status = .scheduled ∧ i.endTime < now)).length)
    ∧ (cleanupExpiredInterviews (cleanupExpiredInterviews ivs now).1 now =
        ((cleanupExpiredInterviews ivs now).1, 0)) := by
  refine ⟨?_, ?_, ?_, ?_⟩
  · unfold cleanupExpiredInterviews
    simp
  · intro k
    unfold cleanupExpiredInterviews
    simp only [List.getElem?_map]
    cases hk : ivs[k]? with
    | none => rfl
    | some i =>
      simp only [Option.map_some']
      congr 1
      rw [expireMatch_eq_decide]
      by_cases h : i.status = .scheduled ∧ i.endTime < now
      · rw [if_pos (by simpa using h), if_pos h]
      · rw [if_neg (by simpa using h), if_neg h]
  · unfold cleanupExpiredInterviews
    simp only
    rw [List.countP_eq_length_filter]
    congr 1
    apply List.filter_congr
    intro i _
    rw [expireMatch_eq_decide]
  · unfold cleanupExpiredInterviews
    simp only [Prod.mk.injEq]
    constructor
    · rw [List.map_map]
      apply List.map_congr_left
      intro a _
      simp only [Function.comp_apply]
      rw [if_neg (by simp [expireStep_fixed now a])]
    · rw [List.countP_eq_zero]
      intro a ha
      obtain ⟨b, -, rfl⟩ := List.mem_map.mp ha
      simp [expireStep_fixed now b]

/-- C5: the schedule guards run in the order job existence, application
membership, future-time check (any `scheduledAt <= now`, equality included,
is `InvalidTime`), conflict check — each short-circuiting regardless of the
later guards — and only when all pass is an interview created, in status
`scheduled`. -/
theorem schedule_guard_order (st : St) (userId jobId : Nat) (scheduledAt : Int)
    (duration? : Option Int) (now : Int) :
    (findJob st.jobs jobId = none →
      schedule st userId (some jobId) (some scheduledAt) duration? now =
        .error .JobNotFound)
    ∧ (∀ job, findJob st.jobs jobId = some job → userId ∉ job.applications →
      schedule st userId (some jobId) (some scheduledAt) duration? now =
        .error .NotApplied)
    ∧ (∀ job, findJob st.jobs jobId = some job → userId ∈ job.applications →
      scheduledAt ≤ now →
      schedule st userId (some jobId) (some scheduledAt) duration? now =
        .error .InvalidTime)
    ∧ (∀ job c, findJob st.jobs jobId = some job → userId ∈ job.applications →
      now < scheduledAt →
      checkTimeConflict st.interviews scheduledAt (duration?.getD 10) none = some c →
      schedule st userId (some jobId) (some scheduledAt) duration? now =
        .error .SlotConflict)
    ∧ (∀ job, findJob st.jobs jobId = some job → userId ∈ job.applications →
      now < scheduledAt →
      checkTimeConflict st.interviews scheduledAt (duration?.getD 10) none = none →
      schedule st userId (some jobId) (some scheduledAt) duration? now =
        .ok ({ st with
                 interviews := st.interviews ++
                   [newInterview st userId jobId scheduledAt (duration?.getD 10)],
                 nextId := st.nextId + 1 },
             newInterview st userId jobId scheduledAt (duration?.getD 10))
      ∧ (newInterview st userId jobId scheduledAt (duration?.getD 10)).status =
          .scheduled) := by
  refine ⟨?_, ?_, ?_, ?_, ?_⟩
  · intro hj
    simp only [schedule_eq, hj]
  · intro job hj ha
    simp only [schedule_eq, hj, if_neg ha]
  · intro job hj ha ht
    simp only [schedule_eq, hj, if_pos ha, if_pos ht]
  · intro job c hj ha ht hc
    simp only [schedule_eq, hj, if_pos ha, if_neg (not_le.mpr ht), hc]
  · intro job hj ha ht hc
    exact ⟨by simp only [schedule_eq, hj, if_pos ha, if_neg (not_le.mpr ht), hc], rfl⟩

/-- C5 witness: with no jobs stored, schedule reports `JobNotFound`. -/
theorem schedule_guard_order_witness :
    schedule { jobs := [], interviews := [], nextId := 0 } 1 (some 1) (some 100)
      none 0 = .error .JobNotFound :=
  (schedule_guard_order { jobs := [], interviews := [], nextId := 0 } 1 1 100
    none 0).1 rfl

/-- C6: complete succeeds only from status `in-progress`; on success the
saved document has status `completed`, `completedAt = now`, and `notes` set
when a non-empty notes string is supplied (unchanged when the body carries
none); from any other status — including right after a successful
completion — it fails with `InvalidTransition` and returns no updated
state. -/
theorem complete_spec (st : St) (interviewId userId : Nat)
    (notes? : Option String) (now : Int) (iv : Interview)
    (hfind : findOwned st.interviews interviewId userId = some iv) :
    (iv.status ≠ .inProgress →
      complete st interviewId userId notes? now = .error .InvalidTransition)
    ∧ (iv.status = .inProgress →
      complete st interviewId userId notes? now =
        .ok (saveInterview st (completedDoc iv notes? now),
             completedDoc iv notes? now)
      ∧ (completedDoc iv notes? now).status = .completed
      ∧ (completedDoc iv notes? now).completedAt = some now
      ∧ (∀ s, notes? = some s → s ≠ "" →
          (completedDoc iv notes? now).notes = some s)
      ∧ (notes? = none → (completedDoc iv notes? now).notes = iv.notes)
      ∧ complete (saveInterview st (completedDoc iv notes? now)) interviewId
          userId notes? now = .error .InvalidTransition) := by
  have heq := complete_eq_of_findOwned st interviewId userId notes? now iv hfind
  constructor
  · intro h
    rw [heq, if_pos h]
  · intro h
    refine ⟨by rw [heq, if_neg (by simp [h])], rfl, rfl, ?_, ?_, ?_⟩
    · intro s hs hne
      simp [completedDoc, hs, hne]
    · intro hn
      simp [completedDoc, hn]
    · have hfind2 : findOwned (saveInterview st (completedDoc iv notes? now)).interviews
          interviewId userId = some (completedDoc iv notes? now) := by
        unfold saveInterview
        exact findOwned_save st.interviews interviewId userId iv _ hfind rfl rfl
      rw [complete_eq_of_findOwned _ _ _ _ _ _ hfind2,
        if_pos (by simp [completedDoc])]

/-- C6 witness: completing the in-progress booking stores the completed
document; completing again is `InvalidTransition`. -/
theorem complete_spec_witness :
    complete progSt 20 1 (some "solid answers") 4000000 =
      .ok (saveInterview progSt (completedDoc progBooking (some "solid answers") 4000000),
           completedDoc progBooking (some "solid answers") 4000000)
    ∧ complete (saveInterview progSt (completedDoc progBooking (some "solid answers") 4000000))
        20 1 (some "solid answers") 4000000 = .error .InvalidTransition := by
  have h := (complete_spec progSt 20 1 (some "solid answers") 4000000
    progBooking rfl).2 rfl
  exact ⟨h.1, h.2.2.2.2.2⟩

/-- C7: cancel on an owned interview fails without touching the store when
the status is `completed`; from every other status it physically deletes the
record — the resulting store is the old one with every document of that id
filtered out, so no interview with the cancelled id remains. -/
theorem cancel_spec (st : St) (interviewId userId : Nat) (iv : Interview)
    (hfind : findOwned st.interviews interviewId userId = some iv) :
    (iv.status = .completed →
      cancel st interviewId userId = .error .CannotCancelCompleted)
    ∧ (iv.status ≠ .completed →
      cancel st interviewId userId =
        .ok { st with interviews :=
                st.interviews.filter fun j => decide (j.id ≠ interviewId) }
      ∧ ∀ j ∈ st.interviews.filter fun j => decide (j.id ≠ interviewId),
          j.id ≠ interviewId) := by
  have heq := cancel_eq_of_findOwned st interviewId userId iv hfind
  constructor
  · intro h
    rw [heq, if_pos h]
  · intro h
    refine ⟨by rw [heq, if_neg h], ?_⟩
    intro j hj
    simpa using List.of_mem_filter hj

/-- C7 witness: cancelling the scheduled booking removes it from the
store. -/
theorem cancel_spec_witness :
    cancel twoCandSt 10 1 =
      .ok { twoCandSt with interviews :=
              twoCandSt.interviews.filter fun j => decide (j.id ≠ 10) } :=
  ((cancel_spec twoCandSt 10 1 cand1Booking rfl).2 (by decide)).1

/-- C8 counterexample: the schedule route does not validate the supplied
duration: a request carrying `duration = 0` succeeds and creates an
interview whose `endTime` equals its `scheduledAt`, violating the claimed
invariant `endTime > scheduledAt`. -/
theorem duration_not_validated_cex :
    schedule soloSt 1 (some 1) (some 100) (some 0) 0 =
      .ok ({ soloSt with interviews := [newInterview soloSt 1 1 100 0], nextId := 1 },
           newInterview soloSt 1 1 100 0)
    ∧ (newInterview soloSt 1 1 100 0).duration = 0
    ∧ (newInterview soloSt 1 1 100 0).endTime =
        (newInterview soloSt 1 1 100 0).scheduledAt :=
  ⟨rfl, rfl, rfl⟩

/-- C8 amended: the created interview's duration is the caller's value with
default 10 when omitted, and `endTime > scheduledAt` holds exactly when
that effective duration is positive — in particular it holds whenever the
request omits the duration, but the code accepts non-positive values. -/
theorem schedule_duration_default_only (st : St) (userId jobId : Nat)
    (scheduledAt : Int) (duration? : Option Int) (now : Int)
    (st' : St) (iv : Interview)
    (h : schedule st userId (some jobId) (some scheduledAt) duration? now =
      .ok (st', iv)) :
    iv.duration = duration?.getD 10
    ∧ (duration? = none → iv.duration = 10 ∧ iv.scheduledAt < iv.endTime)
    ∧ (0 < iv.duration ↔ iv.scheduledAt < iv.endTime) := by
  rw [schedule_eq] at h
  split at h
  · cases h
  · split at h
    · split at h
      · cases h
      · split at h
        · cases h
        · injection h with hpair
          injection hpair with hA hB
          subst hB
          refine ⟨rfl, ?_, ?_⟩
          · intro hn
            subst hn
            exact ⟨rfl, by unfold newInterview Interview.endTime; simp⟩
          · unfold newInterview Interview.endTime
            simp only
            omega
    · cases h

/-- C8 amended witness: omitting the duration yields the default 10. -/
theorem schedule_duration_default_only_witness :
    (newInterview soloSt 1 1 100 10).duration = (none : Option Int).getD 10 :=
  (schedule_duration_default_only soloSt 1 1 100 none 0
    { soloSt with interviews := [newInterview soloSt 1 1 100 10], nextId := 1 }
    (newInterview soloSt 1 1 100 10) rfl).1

/-- C9: every owner-scoped operation — start, complete, cancel, get —
answers `NotFound` whenever no stored interview has both the requested id
and the caller as owner, covering the absent-id case and the
owned-by-another-candidate case identically; no `Forbidden`-style outcome
exists in their result types. -/
theorem unowned_is_notFound (st : St) (interviewId userId : Nat) (now : Int)
    (notes? : Option String)
    (h : ∀ i ∈ st.interviews, i.id = interviewId → i.user ≠ userId) :
    start st interviewId userId now = .error .NotFound
    ∧ complete st interviewId userId notes? now = .error .NotFound
    ∧ cancel st interviewId userId = .error .NotFound
    ∧ getInterview st interviewId userId = .error .NotFound := by
  have hnone : findOwned st.interviews interviewId userId = none := by
    unfold findOwned
    rw [List.find?_eq_none]
    intro i hi
    simp only [Bool.and_eq_true, beq_iff_eq]
    rintro ⟨h1, h2⟩
    exact h i hi h1 h2
  refine ⟨?_, ?_, ?_, ?_⟩
  · unfold start
    rw [hnone]
  · unfold complete
    rw [hnone]
  · unfold cancel
    rw [hnone]
  · unfold getInterview
    rw [hnone]

/-- C9 witness: candidate 2 probing candidate 1's interview id receives
`NotFound` from start and from get. -/
theorem unowned_is_notFound_witness :
    start twoCandSt 10 2 0 = .error .NotFound
    ∧ getInterview twoCandSt 10 2 = .error .NotFound := by
  have h := unowned_is_notFound twoCandSt 10 2 0 none (by decide)
  exact ⟨h.1, h.2.2.2⟩

end Backend
